import Mathlib

/-!
Verification development for the clio interactive coding assistant.

The Python sources are shallowly embedded as executable Lean definitions:
  * `Clio.Tools` models `src/clio/agent/tools.py` (write_file, read_file,
    edit_file, execute_bash safety filter);
  * `Clio.ContextManager` models `src/claude_clone/context/manager.py`;
  * `Clio.chat` models the orchestrator loop `Agent.chat` in
    `src/clio/agent/core.py`;
  * `Clio.IDEBridge` models `src/clio/ide_bridge.py`.

Filesystem and network effects are made explicit: the on-disk state is a
finite map from absolute paths to text contents, the permission callback
is a pure predicate together with an instrumentation flag recording
whether the gate was consulted, and provider/bridge responses are
supplied as explicit environment values.  Path resolution is modelled
without symlink or dot-segment normalisation: an absolute path resolves
to itself and a relative path is joined to the resolving directory.
-/

set_option maxRecDepth 10000

namespace Clio

/-! ## String helpers (character-list based, all executable) -/

/-- The newline character. -/
def nlChar : Char := Char.ofNat 10

/-- Python `s.startswith(pre)` (character-list based so that it reduces
in the kernel, unlike core `String.startsWith`). -/
def strStartsWith (s pre : String) : Bool :=
  pre.data.isPrefixOf s.data

/-- ASCII lower-casing, Python `s.lower()` (non-ASCII letters are also
lowered by `Char.toLower` only in the ASCII range; the dangerous
patterns are all ASCII). -/
def strToLower (s : String) : String :=
  ⟨s.data.map Char.toLower⟩

/-- Python `s.replace(" ", "")`: remove every space character. -/
def strRemoveSpaces (s : String) : String :=
  ⟨s.data.filter (fun c => c != ' ')⟩

/-- Python `s[:n]`. -/
def strTake (s : String) (n : Nat) : String :=
  ⟨s.data.take n⟩

/-- First index at which `needle` occurs in the character list, scanning
from position `i`.  Mirrors Python `str.find` (which returns the lowest
index, or -1; we return `none` instead of -1). -/
def findSubAux (needle : List Char) : List Char → Nat → Option Nat
  | [], i => if needle.isPrefixOf ([] : List Char) then some i else none
  | s@(_ :: rest), i =>
    if needle.isPrefixOf s then some i else findSubAux needle rest (i + 1)

/-- Index of the first occurrence of `needle` in `hay`, Python `hay.find(needle)`. -/
def findSub (hay needle : String) : Option Nat :=
  findSubAux needle.data hay.data 0

/-- Python membership test `needle in hay` on strings. -/
def strContains (hay needle : String) : Bool :=
  (findSub hay needle).isSome

/-- Index of the last occurrence of character `c`, Python `str.rfind(c)`
(`none` instead of -1 when absent). -/
def rfindCharAux (c : Char) : List Char → Nat → Option Nat → Option Nat
  | [], _, acc => acc
  | x :: rest, i, acc => rfindCharAux c rest (i + 1) (if x = c then some i else acc)

/-- Last index of `c` in `s`, or `none`. -/
def rfindChar (s : String) (c : Char) : Option Nat :=
  rfindCharAux c s.data 0 none

/-- Python `s.replace(old, new, 1)` on character lists: replace the first
occurrence only (an empty pattern matches at position 0, as in Python). -/
def listReplaceFirst (needle repl : List Char) : List Char → List Char
  | [] => if needle.isPrefixOf ([] : List Char) then repl else []
  | s@(c :: rest) =>
    if needle.isPrefixOf s then repl ++ s.drop needle.length
    else c :: listReplaceFirst needle repl rest

/-- Python `content.replace(old_text, new_text, 1)`. -/
def replaceFirst (s needle repl : String) : String :=
  ⟨listReplaceFirst needle.data repl.data s.data⟩

/-- Count occurrences of a character, Python `s.count(c)`. -/
def countChar (s : String) (c : Char) : Nat :=
  s.data.count c

/-- Best-effort model of Python `text.encode().decode('unicode_escape')`
as used in `tools.py` to normalise literal two-character escape
sequences emitted by a model.  Recognised escapes are mapped to their
character; an unrecognised escape sequence is kept verbatim, and a
trailing lone backslash is kept (in Python that case raises and the
caller falls back to the original text, which gives the same result).
`\xhh`, `\uXXXX` and multi-digit octal escapes are not modelled. -/
def escMap (c : Char) : Option Char :=
  if c = 'n' then some nlChar
  else if c = 't' then some (Char.ofNat 9)
  else if c = 'r' then some (Char.ofNat 13)
  else if c = Char.ofNat 92 then some (Char.ofNat 92)
  else if c = Char.ofNat 39 then some (Char.ofNat 39)
  else if c = Char.ofNat 34 then some (Char.ofNat 34)
  else if c = 'a' then some (Char.ofNat 7)
  else if c = 'b' then some (Char.ofNat 8)
  else if c = 'f' then some (Char.ofNat 12)
  else if c = 'v' then some (Char.ofNat 11)
  else if c = '0' then some (Char.ofNat 0)
  else none

/-- Character-list worker for `decodeEscapes`. -/
def decodeEscapesAux : List Char → List Char
  | [] => []
  | c :: rest =>
    if c = Char.ofNat 92 then
      match rest with
      | [] => [c]
      | d :: rest2 =>
        match escMap d with
        | some e => e :: decodeEscapesAux rest2
        | none => c :: d :: decodeEscapesAux rest2
    else c :: decodeEscapesAux rest

/-- The escaped-character normalisation applied by `write_file` to its
content argument and by `edit_file` to `old_text`/`new_text`. -/
def decodeEscapes (s : String) : String :=
  ⟨decodeEscapesAux s.data⟩

/-! ## Paths and the filesystem model -/

/-- A path is absolute when it starts with a slash (POSIX). -/
def isAbsolute (p : String) : Bool := strStartsWith p "/"

/-- Python `Path(base) / p`: joining with an absolute `p` discards `base`. -/
def joinPath (base p : String) : String :=
  if isAbsolute p then p else base ++ "/" ++ p

/-- Model of `Path(path).resolve()` relative to the current working
directory (no symlink or dot-segment normalisation). -/
def resolvePath (cwd p : String) : String := joinPath cwd p

/-- The on-disk regular files: absolute path, text content. -/
abbrev FS := List (String × String)

/-- Look up the content stored under absolute path `p`. -/
def fsLookup (fs : FS) (p : String) : Option String :=
  (fs.find? (fun e => e.1 == p)).map Prod.snd

/-- Python dict insert/overwrite keyed by `p`: an existing key keeps its
position and gets the new value; a fresh key is appended. -/
def fsInsert (fs : FS) (p c : String) : FS :=
  if (fs.find? (fun e => e.1 == p)).isSome then
    fs.map (fun e => if e.1 = p then (p, c) else e)
  else fs ++ [(p, c)]

/-- Python `del d[p]` (keys are unique in a dict, so removing every
matching entry is the same operation). -/
def fsRemove : FS → String → FS
  | [], _ => []
  | e :: rest, p => if e.1 = p then fsRemove rest p else e :: fsRemove rest p

/-! ## Tools.write_file (`src/clio/agent/tools.py`) -/

/-- The fixed deny-list of `write_file`. -/
def protectedDirs : List String :=
  ["/etc", "/boot", "/sys", "/proc", "/dev", "/usr/bin", "/usr/sbin", "/bin", "/sbin"]

/-- The blocked result returned by `write_file` for a protected prefix. -/
def writeBlockedMsg (d : String) : String :=
  s!"🚫 BLOCKED: Cannot write to system directory {d}. This requires manual intervention."

/-- An (optional) permission callback, `(operation, details) -> bool`.
`Tools.request_permission` auto-approves when no callback is installed. -/
def requestPermission (perm : Option (String → String → Bool)) (op details : String) : Bool :=
  match perm with
  | some f => f op details
  | none => true

/-- Model of `Tools.write_file`.  Returns the result string, the new filesystem,
and an instrumentation flag that is `true` exactly when control reached
the permission gate (`request_permission`). -/
def writeFile (perm : Option (String → String → Bool)) (cwd : String) (fs : FS)
    (path content : String) : String × FS × Bool :=
  let rp := resolvePath cwd path
  match protectedDirs.find? (fun d => strStartsWith rp d) with
  | some d => (writeBlockedMsg d, fs, false)
  | none =>
    let n := content.length
    if requestPermission perm "write_file" s!"Write to {path} ({n} chars)" then
      let decoded := decodeEscapes content
      (s!"Successfully wrote to {path}", fsInsert fs rp decoded, true)
    else
      ("Permission denied", fs, true)

/-! ## Tools.read_file and Tools.edit_file (`src/clio/agent/tools.py`)

`read_file` signals failures in-band: every failure is returned as a
string starting with `"Error:"`.  Unicode decoding failures and other
I/O exceptions are not modelled (contents are text by construction). -/

/-- Model of `Tools.read_file`: the file contents, or an in-band error string. -/
def readFile (fs : FS) (cwd path : String) : String :=
  let rp := resolvePath cwd path
  match fsLookup fs rp with
  | some c => c
  | none => s!"Error: File not found: {path}"

/-- The `TextNotFound` result of `edit_file` (`old_text` is the decoded
argument; the message quotes its first 100 characters). -/
def textNotFoundMsg (oldText : String) : String :=
  s!"Error: Text not found in file: {strTake oldText 100}..."

/-- An edit range in line/character coordinates, as sent to an editor. -/
structure EditRange where
  startLine : Nat
  startChar : Nat
  endLine : Nat
  endChar : Nat
  deriving Repr, DecidableEq

/-- One entry of `Tools.pending_highlights[file]` (the PendingEdit batch). -/
structure PendingEntry where
  range : EditRange
  oldText : String
  newText : String
  deriving Repr, DecidableEq

/-- The edit message sent on the VS Code protocol path: file, range, new text. -/
structure VscodeEditMsg where
  file : String
  range : EditRange
  newText : String
  deriving Repr, DecidableEq

/-- Everything `Tools.edit_file` produces: the tool result string, the
filesystem after the call, the pending-highlight batches, the bridge
connected flag after the call, whether the permission gate was reached,
the VS Code edit message (if one was emitted) and the `proposeDiff`
batch sent to the bridge (if one was sent). -/
structure EditOutcome where
  result : String
  fs : FS
  pending : List (String × List PendingEntry)
  bridgeConnected : Bool
  permConsulted : Bool
  vscodeMsg : Option VscodeEditMsg
  proposeSent : Option (String × List PendingEntry)
  deriving Repr, DecidableEq

/-- Append an entry to the pending-highlight batch of `file` (creating
the batch when absent), mirroring the `pending_highlights` dict update. -/
def pendingAppend (pending : List (String × List PendingEntry)) (file : String)
    (entry : PendingEntry) : List (String × List PendingEntry) :=
  if (pending.find? (fun e => e.1 == file)).isSome then
    pending.map (fun e => if e.1 = file then (file, e.2 ++ [entry]) else e)
  else pending ++ [(file, [entry])]

/-- The batch stored for `file` (empty when none). -/
def pendingGet (pending : List (String × List PendingEntry)) (file : String) :
    List PendingEntry :=
  ((pending.find? (fun e => e.1 == file)).map Prod.snd).getD []

/-- Model of `Tools.edit_file`.  Parameters beyond the tool arguments are the
explicit environment: the permission callback, whether a
`vscode_protocol` object is installed, the bridge connected flag, a flag
telling whether the bridge socket send succeeds, the working directory,
the filesystem, and the current pending-highlight batches. -/
def editFile (perm : Option (String → String → Bool)) (vscodeOn : Bool)
    (bridgeConnected : Bool) (sendOk : Bool) (cwd : String) (fs : FS)
    (pending : List (String × List PendingEntry))
    (path oldText newText : String) : EditOutcome :=
  -- decode escaped characters in old_text and new_text
  let old := decodeEscapes oldText
  let new := decodeEscapes newText
  -- read current content (errors are in-band "Error:" strings)
  let content := readFile fs cwd path
  if strStartsWith content "Error:" then
    ⟨content, fs, pending, bridgeConnected, false, none, none⟩
  else if ¬ strContains content old then
    ⟨textNotFoundMsg old, fs, pending, bridgeConnected, false, none, none⟩
  else
    -- position of old_text, for the editor range
    let startPos := (findSub content old).getD 0
    let beforeChars := content.data.take startPos
    let linesBefore := beforeChars.count nlChar
    let charInLine :=
      match rfindChar ⟨beforeChars⟩ nlChar with
      | some j => startPos - j - 1
      | none => startPos
    let linesInOld := countChar old nlChar
    let endCharOld :=
      if strContains old "\n" then
        let lastLineStart := (rfindChar old nlChar).getD 0 + 1
        old.length - lastLineStart
      else charInLine + old.length
    if vscodeOn then
      -- VS Code mode: emit an edit message instead of writing the file
      ⟨s!"Successfully edited {path}", fs, pending, bridgeConnected, false,
        some ⟨path, ⟨linesBefore, max 0 charInLine, linesBefore + linesInOld, endCharOld⟩, new⟩,
        none⟩
    else if bridgeConnected then
      -- IDE bridge path: apply the edit to the file, batch the highlight,
      -- send the whole batch as a proposeDiff
      let newContent := replaceFirst content old new
      let rp := resolvePath cwd path
      let fs2 := fsInsert fs rp newContent
      let newlineCount := countChar new nlChar
      let endCharNew :=
        if strContains new "\n" then
          let lastLineStart := (rfindChar new nlChar).getD 0 + 1
          new.length - lastLineStart
        else charInLine + new.length
      let endLine :=
        if strContains new "\n" then linesBefore + newlineCount else linesBefore
      let entry : PendingEntry :=
        ⟨⟨linesBefore, max 0 charInLine, endLine, endCharNew⟩, old, new⟩
      let pending2 := pendingAppend pending rp entry
      -- bridge.propose_diff sends via IDEBridge.send, which swallows
      -- failures but clears the connected flag when the send fails
      let connected2 := sendOk
      ⟨s!"Successfully edited {path} (hover over green highlight to see changes, click Undo to revert)",
        fs2, pending2, connected2, false, none, some (rp, pendingGet pending2 rp)⟩
    else
      -- normal mode: permission gate, then direct write
      let newContent := replaceFirst content old new
      let nOld := old.length
      let nNew := new.length
      if requestPermission perm "edit_file"
          s!"Edit {path}: replace {nOld} chars with {nNew} chars" then
        let rp := resolvePath cwd path
        ⟨s!"Successfully edited {path}", fsInsert fs rp newContent, pending,
          bridgeConnected, true, none, none⟩
      else
        ⟨"Permission denied", fs, pending, bridgeConnected, true, none, none⟩

/-! ## Tools.execute_bash (`src/clio/agent/tools.py`) -/

/-- The fixed list of destructive command patterns. -/
def dangerousPatterns : List String :=
  ["rm -rf /", "rm -rf /*", "rm -rf ~", "rm -rf $HOME", "> /dev/sda", "mkfs.",
   "dd if=", ":(){ :|:& };:", "chmod -R 777 /", "/etc/passwd", "/etc/shadow",
   "curl | bash", "wget | sh"]

/-- Python `s.lower().replace(" ", "")`: lower-case, then remove space
characters (only U+0020, not other whitespace). -/
def stripSpacesLower (s : String) : String :=
  strRemoveSpaces (strToLower s)

/-- The pattern filter of `execute_bash`: the first dangerous pattern
whose space-stripped lower-cased form occurs in the space-stripped
lower-cased command, if any. -/
def matchesDangerous (command : String) : Option String :=
  let cmdLower := stripSpacesLower command
  dangerousPatterns.find? (fun pat => strContains cmdLower (stripSpacesLower pat))

/-- The blocked result returned by `execute_bash` on a pattern match. -/
def bashBlockedMsg (pat : String) : String :=
  s!"🚫 BLOCKED: Command contains potentially dangerous pattern \x27{pat}\x27. If you need to run this, please do it manually."

/-- How far `execute_bash` got: blocked by the pattern filter, refused
by the permission gate, or a subprocess was actually spawned (the
subprocess output itself is external I/O and outside the model). -/
inductive BashResult where
  | blocked (msg : String)
  | permissionDenied
  | spawned (command : String) (timeout : Nat)
  deriving Repr, DecidableEq

/-- Model of `Tools.execute_bash` up to the point where a subprocess is spawned.
The second component is `true` exactly when the permission gate was
reached. -/
def executeBash (perm : Option (String → String → Bool)) (command : String)
    (timeout : Nat := 30) : BashResult × Bool :=
  match matchesDangerous command with
  | some pat => (BashResult.blocked (bashBlockedMsg pat), false)
  | none =>
    if requestPermission perm "execute_bash" s!"Run command: {command}" then
      (BashResult.spawned command timeout, true)
    else
      (BashResult.permissionDenied, true)

/-- Spec-side definition (for comparison only), following the words of
the specification: the command is compared "with whitespace stripped,
case-insensitively" against the pattern list — i.e. all whitespace
characters are removed, not just spaces. -/
def matchesDangerousSpecWS (command : String) : Option String :=
  let strip := fun (s : String) => ⟨(strToLower s).data.filter (fun c => ¬ c.isWhitespace)⟩
  dangerousPatterns.find? (fun pat => strContains (strip command) (strip pat))

/-! ## ContextManager (`src/claude_clone/context/manager.py`)

The token counter (`tiktoken` `cl100k_base`) is abstracted as a pure
function `tc : String → Nat`, per the Token Counter contract.  The disk
is explicit: regular files with contents plus a set of directory paths
(needed for the `is_file` check). -/

/-- The disk as seen by the context manager. -/
structure Disk where
  files : FS
  dirs : List String
  deriving Repr

/-- Python `Path(p).exists()` against the modelled disk. -/
def diskExists (d : Disk) (p : String) : Bool :=
  (fsLookup d.files p).isSome || d.dirs.contains p

/-- The `ContextManager` state: the `path -> content` dict, the token limit
and the stored launch working directory. -/
structure ContextManager where
  files : FS
  token_limit : Nat
  working_dir : String
  deriving Repr

/-- Total tokens of the context: `sum(count(content) for content in files.values())`,
recomputed from the entries (no cache). -/
def fsTotal (tc : String → Nat) (fs : FS) : Nat :=
  (fs.map (fun e => tc e.2)).sum

/-- Model of `ContextManager.get_total_tokens`. -/
def getTotalTokens (tc : String → Nat) (cm : ContextManager) : Nat :=
  fsTotal tc cm.files

/-- The four path-resolution strategies of `ContextManager.add_file`, in
order: absolute-and-exists, relative to the stored working directory,
relative to the process working directory, and as-is (which for a
relative path is again relative to the process working directory, so
strategy 4 coincides with strategy 3 in this model). -/
def resolveAdd (disk : Disk) (workingDir cwd path : String) : Option String :=
  if isAbsolute path && diskExists disk path then some path
  else if diskExists disk (joinPath workingDir path) then some (joinPath workingDir path)
  else if diskExists disk (joinPath cwd path) then some (joinPath cwd path)
  else if diskExists disk (joinPath cwd path) then some (joinPath cwd path)
  else none

/-- The `BudgetExceeded` message of `add_file`. -/
def budgetMsg (total limit : Nat) : String :=
  s!"❌ Adding file would exceed token limit ({total} > {limit})"

/-- The success message of `add_file`. -/
def addedMsg (path : String) (tokens : Nat) : String :=
  s!"✓ Added {path} ({tokens} tokens)"

/-- The `NotFound` message of `add_file` (lists the paths tried). -/
def addNotFoundMsg (workingDir cwd path : String) : String :=
  s!"❌ File not found: {path}\nTried:\n  - {joinPath workingDir path}\n  - {joinPath cwd path}\n  - {joinPath cwd path}"

/-- Model of `ContextManager.add_file` (decode errors on read are not modelled;
contents are text by construction). -/
def addFile (tc : String → Nat) (disk : Disk) (cwd : String)
    (cm : ContextManager) (path : String) : String × ContextManager :=
  match resolveAdd disk cm.working_dir cwd path with
  | none => (addNotFoundMsg cm.working_dir cwd path, cm)
  | some rp =>
    match fsLookup disk.files rp with
    | none => (s!"❌ Not a file: {path}", cm)
    | some content =>
      let tokens := tc content
      let total := getTotalTokens tc cm + tokens
      if total > cm.token_limit then (budgetMsg total cm.token_limit, cm)
      else (addedMsg path tokens, { cm with files := fsInsert cm.files rp content })

/-- Model of `ContextManager.remove_file` (its resolution is `Path(path).resolve()`,
i.e. relative to the process working directory only). -/
def removeFile (cwd : String) (cm : ContextManager) (path : String) :
    String × ContextManager :=
  let rp := resolvePath cwd path
  if (fsLookup cm.files rp).isSome then
    (s!"✓ Removed {path}", { cm with files := fsRemove cm.files rp })
  else
    (s!"❌ File not in context: {path}", cm)

/-- Model of `ContextManager.clear`. -/
def clearContext (cm : ContextManager) : ContextManager :=
  { cm with files := [] }

/-- One context-manager operation, carrying the environment (disk and
process working directory) observed by that call. -/
inductive CtxOp where
  | add (disk : Disk) (cwd : String) (path : String)
  | remove (cwd : String) (path : String)
  | clear

/-- Apply a single operation to the state. -/
def applyOp (tc : String → Nat) (cm : ContextManager) : CtxOp → ContextManager
  | CtxOp.add disk cwd path => (addFile tc disk cwd cm path).2
  | CtxOp.remove cwd path => (removeFile cwd cm path).2
  | CtxOp.clear => clearContext cm

/-- Run a sequence of operations. -/
def runOps (tc : String → Nat) (cm : ContextManager) (ops : List CtxOp) : ContextManager :=
  ops.foldl (applyOp tc) cm

/-! ## The orchestrator loop `Agent.chat` (`src/clio/agent/core.py`) -/

/-- Message roles. -/
inductive Role where
  | user
  | assistant
  | system
  | tool
  deriving Repr, DecidableEq

/-- A tool call produced by the model (arguments kept as the raw JSON
string; its JSON decoding is folded into the abstract tool executor). -/
structure ToolCall where
  id : String
  name : String
  arguments : String
  deriving Repr, DecidableEq

/-- A history message. `tool_calls = []` stands for an absent/empty list
(both are falsy in the Python guard). -/
structure Message where
  role : Role
  content : Option String
  tool_calls : List ToolCall
  tool_call_id : Option String
  deriving Repr, DecidableEq

/-- One provider response, as consumed by the loop:
`response["choices"][0]["message"]` plus its `finish_reason`. -/
structure AssistantResp where
  content : Option String
  tool_calls : List ToolCall
  finish_reason : String
  deriving Repr, DecidableEq

/-- The assistant message appended to the history for a response. -/
def assistantMsgOf (resp : AssistantResp) : Message :=
  ⟨Role.assistant, resp.content, resp.tool_calls, none⟩

/-- The tool-role result message for one tool call, given the tool
executor (`Tools.execute_tool` abstracted as `exec : name → raw args → result`). -/
def toolResultMsg (exec : String → String → String) (tc : ToolCall) : Message :=
  ⟨Role.tool, some (exec tc.name tc.arguments), [], some tc.id⟩

/-- What a chat turn produces: the returned string, the final message
list, and the number of provider invocations made. -/
structure ChatOut where
  result : String
  messages : List Message
  providerCalls : Nat
  deriving Repr, DecidableEq

/-- The `while iteration < max_iterations` loop of `Agent.chat`, with
the remaining iteration budget as fuel.  The provider is a pure function
of the message list it is shown.  Python checks
`finish_reason == "stop" or not message.get("tool_calls")` to end the
turn; `None`/`""` content becomes `"[No response from model]"`.
Otherwise one tool-role message per tool call is appended, in call
order, and the loop continues. -/
def chatLoop (provider : List Message → AssistantResp)
    (exec : String → String → String) : Nat → List Message → ChatOut
  | 0, msgs => ⟨"Max iterations reached", msgs, 0⟩
  | fuel + 1, msgs =>
    let resp := provider msgs
    let msgs1 := msgs ++ [assistantMsgOf resp]
    if resp.finish_reason = "stop" ∨ resp.tool_calls = [] then
      let out :=
        match resp.content with
        | none => "[No response from model]"
        | some c => if c = "" then "[No response from model]" else c
      ⟨out, msgs1, 1⟩
    else
      let toolMsgs := resp.tool_calls.map (toolResultMsg exec)
      let r := chatLoop provider exec fuel (msgs1 ++ toolMsgs)
      ⟨r.result, r.messages, r.providerCalls + 1⟩

/-- The system prompt (abridged: no claim depends on its text). -/
def systemPrompt : String :=
  "You are a helpful AI coding assistant. You help users with coding tasks."

/-- Model of `Agent.chat`: prepend the context to the user message when present,
append the user message to the history, put the system prompt first,
and run the loop with `max_iterations = 10`. -/
def chat (provider : List Message → AssistantResp)
    (exec : String → String → String) (history : List Message)
    (userMessage context : String) : ChatOut :=
  let u := if context ≠ "" then context ++ "\n\n" ++ userMessage else userMessage
  let msgs0 := history ++ [⟨Role.user, some u, [], none⟩]
  let messages := (⟨Role.system, some systemPrompt, [], none⟩ : Message) :: msgs0
  chatLoop provider exec 10 messages

/-! ## IDEBridge.connect (`src/clio/ide_bridge.py`) -/

/-- The bridge state: the `connected` flag, the discovered port, and
whether a WebSocket object is held (`self.ws is not None`). -/
structure BridgeSt where
  connected : Bool
  port : Option Nat
  hasWs : Bool
  deriving Repr, DecidableEq

/-- The environment of one `connect()` attempt: the port discovery
outcome, whether `websockets.connect` succeeds, whether the handshake
send succeeds, and the first received message — `none` for a transport
or JSON-parse error (an exception), `some t` for a parsed message whose
`type` field is `t`. -/
structure ConnectEnv where
  discovered : Option Nat
  wsOk : Bool
  sendOk : Bool
  recvMsgType : Option (Option String)
  deriving Repr, DecidableEq

/-- Model of `IDEBridge.connect`: returns the boolean result and the bridge state
after the attempt.  Mirrors the source: `self.connected = True` is set
right after the socket opens, the `except` branch resets `connected`
and `ws`, and a first response other than a `connected` acknowledgment
just falls through to `return False`. -/
def connect (st : BridgeSt) (env : ConnectEnv) : Bool × BridgeSt :=
  let st1 := { st with port := env.discovered }
  match env.discovered with
  | none => (false, st1)
  | some _ =>
    if env.wsOk = false then
      (false, { st1 with connected := false, hasWs := false })
    else
      let st2 := { st1 with hasWs := true, connected := true }
      -- IDEBridge.send swallows its own exceptions but clears `connected`
      let st3 := if env.sendOk then st2 else { st2 with connected := false }
      match env.recvMsgType with
      | none => (false, { st3 with connected := false, hasWs := false })
      | some t => if t = some "connected" then (true, st3) else (false, st3)

/-! ## Claim C2: write_file deny-list -/

/-- C2.  For every path whose resolved absolute form has a prefix in
the fixed deny-list of system directories, `write_file` returns a
blocked result, leaves the filesystem unchanged, and never reaches the
permission gate (so the permission callback is never invoked). -/
theorem C2_write_file_protected_blocked
    (perm : Option (String → String → Bool)) (cwd : String) (fs : FS)
    (path content : String)
    (h : ∃ d ∈ protectedDirs, strStartsWith (resolvePath cwd path) d = true) :
    ∃ d ∈ protectedDirs,
      strStartsWith (resolvePath cwd path) d = true ∧
      writeFile perm cwd fs path content = (writeBlockedMsg d, fs, false) := by
  have hsome : (protectedDirs.find? (fun d => strStartsWith (resolvePath cwd path) d)).isSome := by
    rw [List.find?_isSome]
    obtain ⟨d, hd, hs⟩ := h
    exact ⟨d, hd, hs⟩
  obtain ⟨d, hfind⟩ := Option.isSome_iff_exists.mp hsome
  refine ⟨d, List.mem_of_find?_eq_some hfind, List.find?_some hfind, ?_⟩
  simp only [writeFile, hfind]

/-- Witness for C2 at the concrete path `/etc/passwd`. -/
theorem C2_write_file_protected_blocked_witness :
    (∃ d ∈ protectedDirs, strStartsWith (resolvePath "/home/u" "/etc/passwd") d = true) ∧
    ∃ d ∈ protectedDirs,
      strStartsWith (resolvePath "/home/u" "/etc/passwd") d = true ∧
      writeFile none "/home/u" [("/tmp/x", "old")] "/etc/passwd" "pwned" =
        (writeBlockedMsg d, [("/tmp/x", "old")], false) := by
  refine ⟨⟨"/etc", by decide, by decide⟩, ?_⟩
  exact C2_write_file_protected_blocked none "/home/u" [("/tmp/x", "old")] "/etc/passwd"
    "pwned" ⟨"/etc", by decide, by decide⟩

/-! ## Claim C5: execute_bash dangerous-pattern filter (corrected) -/

/-- C5 counterexample.  The claim says the command is compared "with
whitespace stripped"; the code strips only space characters
(`.replace(" ", "")`).  The command `"rm\t-rf /"` (tab instead of a
space) matches the pattern list once all whitespace is stripped, yet
the code does not block it: the filter finds no match and a subprocess
is spawned. -/
theorem C5_counterexample :
    (matchesDangerousSpecWS "rm\t-rf /").isSome = true ∧
    matchesDangerous "rm\t-rf /" = none ∧
    executeBash none "rm\t-rf /" 30 = (BashResult.spawned "rm\t-rf /" 30, true) := by
  refine ⟨by decide, by decide, by decide⟩

/-- C5 (amended).  The filter compares the command with space
characters removed (not all whitespace), case-insensitively, against
the fixed pattern list; any match returns a blocked result with the
permission gate never reached and no subprocess spawned.  In
particular `"rm -rf /"` is blocked and `"rm -rf ./build"` is not
blocked by the pattern filter. -/
theorem C5_dangerous_filter :
    (∀ (perm : Option (String → String → Bool)) (command : String) (timeout : Nat)
       (pat : String), matchesDangerous command = some pat →
       executeBash perm command timeout = (BashResult.blocked (bashBlockedMsg pat), false)) ∧
    matchesDangerous "rm -rf /" = some "rm -rf /" ∧
    executeBash none "rm -rf /" 30 = (BashResult.blocked (bashBlockedMsg "rm -rf /"), false) ∧
    matchesDangerous "rm -rf ./build" = none ∧
    executeBash none "rm -rf ./build" 30 = (BashResult.spawned "rm -rf ./build" 30, true) := by
  refine ⟨?_, by decide, by decide, by decide, by decide⟩
  intro perm command timeout pat hm
  unfold executeBash
  rw [hm]

/-- Witness for C5 applying the universal part at `"rm -rf /home"`. -/
theorem C5_dangerous_filter_witness :
    matchesDangerous "sudo rm -rf /home" = some "rm -rf /" ∧
    executeBash none "sudo rm -rf /home" 30 =
      (BashResult.blocked (bashBlockedMsg "rm -rf /"), false) := by
  refine ⟨by decide, ?_⟩
  exact C5_dangerous_filter.1 none "sudo rm -rf /home" 30 "rm -rf /" (by decide)

/-! ## Claim C7: bridge handshake leaves Disconnected (code bug) -/

/-- C7 evaluation at the failing input.  After port discovery succeeds,
the socket opens and the handshake is sent, a first response whose type
is not `connected` (here `error`) makes `connect()` return `false` —
but the bridge is left with `connected = true`, contradicting the claim
that the bridge ends the attempt in the Disconnected state. -/
theorem C7_connect_failing_input :
    (connect ⟨false, none, false⟩ ⟨some 8080, true, true, some (some "error")⟩).1 = false ∧
    ((connect ⟨false, none, false⟩ ⟨some 8080, true, true, some (some "error")⟩).2).connected = true ∧
    (connect ⟨false, none, false⟩ ⟨some 8080, true, true, none⟩).2.connected = false := by
  refine ⟨by decide, by decide, by decide⟩

/-! ## Claim C10: in-band "Error:" contents disable edit_file -/

/-- C10.  For every file whose actual on-disk content begins with
`"Error:"`, `edit_file` returns that content as its result and performs
no edit (filesystem, pending batches and bridge state unchanged, no
permission gate, no editor message), regardless of the old/new text
arguments and of the bridge or VS Code configuration. -/
theorem C10_error_prefixed_content
    (perm : Option (String → String → Bool)) (vscodeOn bridgeConnected sendOk : Bool)
    (cwd : String) (fs : FS) (pending : List (String × List PendingEntry))
    (path oldText newText content : String)
    (hread : fsLookup fs (resolvePath cwd path) = some content)
    (herr : strStartsWith content "Error:" = true) :
    editFile perm vscodeOn bridgeConnected sendOk cwd fs pending path oldText newText =
      ⟨content, fs, pending, bridgeConnected, false, none, none⟩ := by
  simp only [editFile, readFile, hread, herr]
  simp

/-- Witness for C10: the on-disk content `"Error: boom"` starts with
`"Error:"` and contains the old text `"boom"`, yet the result is the
content itself and nothing changes. -/
theorem C10_error_prefixed_content_witness :
    fsLookup [("/w/f.txt", "Error: boom")] (resolvePath "/w" "f.txt") = some "Error: boom" ∧
    strStartsWith "Error: boom" "Error:" = true ∧
    strContains "Error: boom" "boom" = true ∧
    editFile none false false true "/w" [("/w/f.txt", "Error: boom")] [] "f.txt" "boom" "fixed" =
      ⟨"Error: boom", [("/w/f.txt", "Error: boom")], [], false, false, none, none⟩ := by
  refine ⟨by decide, by decide, by decide, ?_⟩
  exact C10_error_prefixed_content none false false true "/w" [("/w/f.txt", "Error: boom")] []
    "f.txt" "boom" "fixed" "Error: boom" (by decide) (by decide)

/-! ## Claim C4: edit_file TextNotFound (corrected) -/

/-- C4 counterexample.  Two concrete refutations of the claim as
stated.  (a) A file whose on-disk content is `"Error: x"`: the old text
`"q"` does not occur in it, yet `edit_file` returns the content itself,
not the `TextNotFound` error (the in-band `"Error:"` check fires
first).  (b) The argument `"a\\nb"` (backslash-n, four characters) does
not occur verbatim in the content `"a\nb"`, yet no `TextNotFound` is
returned: the argument is escape-decoded first, the decoded text is
found, and the edit is performed (the file changes). -/
theorem C4_counterexample :
    (strContains "Error: x" "q" = false ∧
     (editFile none false false true "/" [("/f", "Error: x")] [] "/f" "q" "r").result =
       "Error: x" ∧
     (editFile none false false true "/" [("/f", "Error: x")] [] "/f" "q" "r").result ≠
       textNotFoundMsg "q") ∧
    (strContains "a\nb" "a\\nb" = false ∧
     (editFile none false false true "/" [("/f", "a\nb")] [] "/f" "a\\nb" "X").result =
       "Successfully edited /f" ∧
     (editFile none false false true "/" [("/f", "a\nb")] [] "/f" "a\\nb" "X").fs =
       [("/f", "X")]) := by
  refine ⟨⟨by decide, by decide, by decide⟩, ⟨by decide, by decide, by decide⟩⟩

/-- C4 (amended).  For every file whose current content does not begin
with `"Error:"` (the in-band read-error marker) and every `old_text`
whose escape-decoded form does not occur in that content, `edit_file`
returns the `TextNotFound` error and performs no write: the filesystem
is unchanged (and the permission gate is never reached), for every
permission callback and bridge/VS Code configuration. -/
theorem C4_edit_text_not_found
    (perm : Option (String → String → Bool)) (vscodeOn bridgeConnected sendOk : Bool)
    (cwd : String) (fs : FS) (pending : List (String × List PendingEntry))
    (path oldText newText content : String)
    (hread : fsLookup fs (resolvePath cwd path) = some content)
    (herr : strStartsWith content "Error:" = false)
    (habs : strContains content (decodeEscapes oldText) = false) :
    editFile perm vscodeOn bridgeConnected sendOk cwd fs pending path oldText newText =
      ⟨textNotFoundMsg (decodeEscapes oldText), fs, pending, bridgeConnected, false,
        none, none⟩ := by
  simp only [editFile, readFile, hread, herr, habs]
  simp

/-- Witness for C4 (amended): old text `"zzz"` absent from `"hello world"`. -/
theorem C4_edit_text_not_found_witness :
    fsLookup [("/w/a.txt", "hello world")] (resolvePath "/w" "a.txt") = some "hello world" ∧
    strStartsWith "hello world" "Error:" = false ∧
    strContains "hello world" (decodeEscapes "zzz") = false ∧
    editFile none false false true "/w" [("/w/a.txt", "hello world")] [] "a.txt" "zzz" "y" =
      ⟨textNotFoundMsg (decodeEscapes "zzz"), [("/w/a.txt", "hello world")], [], false,
        false, none, none⟩ := by
  refine ⟨by decide, by decide, by decide, ?_⟩
  exact C4_edit_text_not_found none false false true "/w" [("/w/a.txt", "hello world")] []
    "a.txt" "zzz" "y" "hello world" (by decide) (by decide) (by decide)

/-! ## Claim C9: bridge path bypasses the permission gate (corrected) -/

/-- C9 counterexample.  Two concrete refutations of the claim as
stated.  (a) When a VS Code protocol object is installed, its branch
runs before the bridge check even with the bridge connected: the edit
message is emitted but the on-disk file is NOT modified, contradicting
"applies the edit to the on-disk file".  (b) With the bridge connected
and `old_text` present in a file whose content begins with `"Error:"`,
the result is the content, not success, and no edit happens. -/
theorem C9_counterexample :
    (strContains "hello" "hello" = true ∧
     (editFile none true true true "/" [("/f", "hello")] [] "/f" "hello" "bye").result =
       "Successfully edited /f" ∧
     (editFile none true true true "/" [("/f", "hello")] [] "/f" "hello" "bye").fs =
       [("/f", "hello")]) ∧
    (strContains "Error: foo" "foo" = true ∧
     (editFile none false true true "/" [("/g", "Error: foo")] [] "/g" "foo" "bar").result =
       "Error: foo" ∧
     (editFile none false true true "/" [("/g", "Error: foo")] [] "/g" "foo" "bar").fs =
       [("/g", "Error: foo")]) := by
  refine ⟨⟨by decide, by decide, by decide⟩, ⟨by decide, by decide, by decide⟩⟩

/-- C9 (amended).  Whenever the IDE bridge is connected, no VS Code
protocol is installed, and the file's content does not begin with
`"Error:"`, `edit_file` with a (decoded) old text present in the file
applies the edit to the on-disk file and returns success without ever
reaching the permission gate; consequently for any two permission
callbacks (including one that always refuses) the outcome is identical
— the gate is consulted only on the non-bridge direct-write path. -/
theorem C9_bridge_bypasses_gate
    (perm1 perm2 : Option (String → String → Bool)) (sendOk : Bool)
    (cwd : String) (fs : FS) (pending : List (String × List PendingEntry))
    (path oldText newText content : String)
    (hread : fsLookup fs (resolvePath cwd path) = some content)
    (herr : strStartsWith content "Error:" = false)
    (hpres : strContains content (decodeEscapes oldText) = true) :
    (editFile perm1 false true sendOk cwd fs pending path oldText newText).result =
      s!"Successfully edited {path} (hover over green highlight to see changes, click Undo to revert)" ∧
    (editFile perm1 false true sendOk cwd fs pending path oldText newText).fs =
      fsInsert fs (resolvePath cwd path)
        (replaceFirst content (decodeEscapes oldText) (decodeEscapes newText)) ∧
    (editFile perm1 false true sendOk cwd fs pending path oldText newText).permConsulted =
      false ∧
    editFile perm1 false true sendOk cwd fs pending path oldText newText =
      editFile perm2 false true sendOk cwd fs pending path oldText newText := by
  simp only [editFile, readFile, hread, herr, hpres]
  simp

/-- Witness for C9: a concrete bridge-connected edit with an
always-refusing callback behaving exactly like the no-callback case. -/
theorem C9_bridge_bypasses_gate_witness :
    fsLookup [("/w/b.txt", "hello")] (resolvePath "/w" "b.txt") = some "hello" ∧
    strStartsWith "hello" "Error:" = false ∧
    strContains "hello" (decodeEscapes "hello") = true ∧
    (editFile (some (fun _ _ => false)) false true true "/w" [("/w/b.txt", "hello")] []
        "b.txt" "hello" "bye").result =
      s!"Successfully edited b.txt (hover over green highlight to see changes, click Undo to revert)" ∧
    (editFile (some (fun _ _ => false)) false true true "/w" [("/w/b.txt", "hello")] []
        "b.txt" "hello" "bye").fs =
      fsInsert [("/w/b.txt", "hello")] (resolvePath "/w" "b.txt")
        (replaceFirst "hello" (decodeEscapes "hello") (decodeEscapes "bye")) ∧
    (editFile (some (fun _ _ => false)) false true true "/w" [("/w/b.txt", "hello")] []
        "b.txt" "hello" "bye").permConsulted = false ∧
    editFile (some (fun _ _ => false)) false true true "/w" [("/w/b.txt", "hello")] []
        "b.txt" "hello" "bye" =
      editFile none false true true "/w" [("/w/b.txt", "hello")] [] "b.txt" "hello" "bye" := by
  have h := C9_bridge_bypasses_gate (some (fun _ _ => false)) none true "/w"
    [("/w/b.txt", "hello")] [] "b.txt" "hello" "bye" "hello" (by decide) (by decide) (by decide)
  exact ⟨by decide, by decide, by decide, h.1, h.2.1, h.2.2.1, h.2.2.2⟩

/-! ## Claim C1: one ToolResult per ToolCall, in order (corrected) -/

/-- A stub tool executor used by concrete orchestrator runs. -/
def execStub : String → String → String := fun name _ => name ++ ": ok"

/-- A provider that answers with a tool call but `finish_reason = "stop"`. -/
def providerStopCE : List Message → AssistantResp :=
  fun _ => ⟨some "done", [⟨"call_1", "read_file", "\x7b\x7d"⟩], "stop"⟩

/-- A provider that always issues one tool call with `finish_reason = "tool_calls"`. -/
def providerToolsCE : List Message → AssistantResp :=
  fun _ => ⟨none, [⟨"call_1", "list_directory", "\x7b\x7d"⟩], "tool_calls"⟩

/-- C1 counterexample.  A provider response carrying a tool call but
with `finish_reason = "stop"`: the loop ends the turn returning the
content, the tool call is never executed and NO tool-role message is
ever appended — the claim that every response carrying tool calls
yields one tool result per call fails on this run. -/
theorem C1_counterexample :
    (providerStopCE []).tool_calls ≠ [] ∧
    (chat providerStopCE execStub [] "hi" "").result = "done" ∧
    (chat providerStopCE execStub [] "hi" "").messages.countP
      (fun m => !m.tool_calls.isEmpty) = 1 ∧
    (chat providerStopCE execStub [] "hi" "").messages.countP
      (fun m => m.role == Role.tool) = 0 := by
  refine ⟨by decide, by decide, by decide, by decide⟩

/-- C1 (amended).  For every assistant response carrying tool calls
whose `finish_reason` is not `"stop"`, the loop appends exactly one
tool-role result message per tool call, in the order the calls were
issued, and the continuation of the loop — whose first action is the
next provider invocation — starts from the history extended by the
assistant message followed by all those tool results. -/
theorem C1_tool_results_in_order
    (provider : List Message → AssistantResp) (exec : String → String → String)
    (fuel : Nat) (msgs : List Message)
    (hstop : (provider msgs).finish_reason ≠ "stop")
    (hcalls : (provider msgs).tool_calls ≠ []) :
    chatLoop provider exec (fuel + 1) msgs =
      ⟨(chatLoop provider exec fuel
          ((msgs ++ [assistantMsgOf (provider msgs)]) ++
            (provider msgs).tool_calls.map (toolResultMsg exec))).result,
       (chatLoop provider exec fuel
          ((msgs ++ [assistantMsgOf (provider msgs)]) ++
            (provider msgs).tool_calls.map (toolResultMsg exec))).messages,
       (chatLoop provider exec fuel
          ((msgs ++ [assistantMsgOf (provider msgs)]) ++
            (provider msgs).tool_calls.map (toolResultMsg exec))).providerCalls + 1⟩ ∧
    ((provider msgs).tool_calls.map (toolResultMsg exec)).length =
      (provider msgs).tool_calls.length ∧
    ∀ (i : Nat) (hi : i < (provider msgs).tool_calls.length),
      ((provider msgs).tool_calls.map (toolResultMsg exec)).get ⟨i, by simpa using hi⟩ =
        toolResultMsg exec ((provider msgs).tool_calls.get ⟨i, hi⟩) ∧
      (((provider msgs).tool_calls.map (toolResultMsg exec)).get ⟨i, by simpa using hi⟩).role =
        Role.tool ∧
      (((provider msgs).tool_calls.map (toolResultMsg exec)).get ⟨i, by simpa using hi⟩).tool_call_id =
        some (((provider msgs).tool_calls.get ⟨i, hi⟩).id) ∧
      (((provider msgs).tool_calls.map (toolResultMsg exec)).get ⟨i, by simpa using hi⟩).content =
        some (exec (((provider msgs).tool_calls.get ⟨i, hi⟩).name)
          (((provider msgs).tool_calls.get ⟨i, hi⟩).arguments)) := by
  refine ⟨?_, by simp, ?_⟩
  · simp only [chatLoop]
    rw [if_neg (by rintro (h1 | h2); exact hstop h1; exact hcalls h2)]
  · intro i hi
    have h1 : ((provider msgs).tool_calls.map (toolResultMsg exec)).get ⟨i, by simpa using hi⟩ =
        toolResultMsg exec ((provider msgs).tool_calls.get ⟨i, hi⟩) := by
      simp
    refine ⟨h1, ?_, ?_, ?_⟩ <;> rw [h1] <;> rfl

/-- Witness for C1 (amended): a concrete one-iteration run appending
the assistant message and its single tool result. -/
theorem C1_tool_results_in_order_witness :
    (providerToolsCE []).finish_reason ≠ "stop" ∧
    (providerToolsCE []).tool_calls ≠ [] ∧
    chatLoop providerToolsCE execStub 1 [] =
      ⟨"Max iterations reached",
       [assistantMsgOf (providerToolsCE [])] ++
         (providerToolsCE []).tool_calls.map (toolResultMsg execStub), 1⟩ := by
  refine ⟨by decide, by decide, ?_⟩
  have h := (C1_tool_results_in_order providerToolsCE execStub 0 [] (by decide) (by decide)).1
  exact h.trans (by decide)

/-! ## Claim C6: iteration cap -/

/-- When every provider response keeps the loop going (tool calls
present and `finish_reason` not `"stop"`), the loop consumes all its
fuel, makes exactly `fuel` provider invocations, and ends with the
max-iterations result. -/
theorem chatLoop_exhausts_fuel (provider : List Message → AssistantResp)
    (exec : String → String → String)
    (h : ∀ msgs, (provider msgs).finish_reason ≠ "stop" ∧ (provider msgs).tool_calls ≠ []) :
    ∀ (fuel : Nat) (msgs : List Message),
      (chatLoop provider exec fuel msgs).result = "Max iterations reached" ∧
      (chatLoop provider exec fuel msgs).providerCalls = fuel := by
  intro fuel
  induction fuel with
  | zero => intro msgs; exact ⟨rfl, rfl⟩
  | succ n ih =>
    intro msgs
    have hc := h msgs
    simp only [chatLoop]
    rw [if_neg (by rintro (h1 | h2); exact hc.1 h1; exact hc.2 h2)]
    refine ⟨(ih _).1, ?_⟩
    show (chatLoop provider exec n _).providerCalls + 1 = n + 1
    rw [(ih _).2]

/-- C6.  For every user turn in which the model carries tool calls on
every iteration and never ends the turn with plain content (its
`finish_reason` is never `"stop"`), the orchestrator performs exactly
10 provider round-trips and then returns the max-iterations result
instead of looping forever. -/
theorem C6_max_iterations (provider : List Message → AssistantResp)
    (exec : String → String → String) (history : List Message)
    (userMessage context : String)
    (h : ∀ msgs, (provider msgs).finish_reason ≠ "stop" ∧ (provider msgs).tool_calls ≠ []) :
    (chat provider exec history userMessage context).result = "Max iterations reached" ∧
    (chat provider exec history userMessage context).providerCalls = 10 := by
  exact chatLoop_exhausts_fuel provider exec h 10 _

/-- Witness for C6: the always-tool-calling provider makes exactly 10
round-trips and ends with the max-iterations result. -/
theorem C6_max_iterations_witness :
    (∀ msgs, (providerToolsCE msgs).finish_reason ≠ "stop" ∧
      (providerToolsCE msgs).tool_calls ≠ []) ∧
    (chat providerToolsCE execStub [] "go" "").result = "Max iterations reached" ∧
    (chat providerToolsCE execStub [] "go" "").providerCalls = 10 := by
  have h : ∀ msgs, (providerToolsCE msgs).finish_reason ≠ "stop" ∧
      (providerToolsCE msgs).tool_calls ≠ [] := by
    intro msgs
    refine ⟨?_, ?_⟩ <;> simp [providerToolsCE]
  exact ⟨h, (C6_max_iterations providerToolsCE execStub [] "go" "" h).1,
    (C6_max_iterations providerToolsCE execStub [] "go" "" h).2⟩

/-! ## Context-manager bookkeeping lemmas -/

/-- The dict invariant: entry keys are pairwise distinct. -/
def keysNodup (fs : FS) : Prop := (fs.map Prod.fst).Nodup

theorem fsTotal_nil (tc : String → Nat) : fsTotal tc [] = 0 := rfl

theorem fsTotal_cons (tc : String → Nat) (e : String × String) (fs : FS) :
    fsTotal tc (e :: fs) = tc e.2 + fsTotal tc fs := by
  simp [fsTotal]

theorem fsTotal_append (tc : String → Nat) (fs gs : FS) :
    fsTotal tc (fs ++ gs) = fsTotal tc fs + fsTotal tc gs := by
  simp [fsTotal]

/-- Overwriting the value of an absent key leaves the list unchanged. -/
theorem map_keep_of_ne (p : String) (c : String) (fs : FS)
    (h : ∀ e ∈ fs, e.1 ≠ p) :
    fs.map (fun e => if e.1 = p then (p, c) else e) = fs := by
  induction fs with
  | nil => rfl
  | cons e fs ih =>
    have he : e.1 ≠ p := h e (List.mem_cons_self e fs)
    simp only [List.map_cons, if_neg he]
    rw [ih (fun x hx => h x (List.mem_cons_of_mem e hx))]

/-- Replacing the (unique) value at key `p` raises the total by at most
the new token count. -/
theorem fsTotal_map_replace_le (tc : String → Nat) (p c : String) :
    ∀ (fs : FS), keysNodup fs →
      fsTotal tc (fs.map (fun e => if e.1 = p then (p, c) else e)) ≤
        fsTotal tc fs + tc c := by
  intro fs
  induction fs with
  | nil => intro _; simp [fsTotal]
  | cons e fs ih =>
    intro h
    have h' : e.1 ∉ fs.map Prod.fst ∧ (fs.map Prod.fst).Nodup := by
      simpa [keysNodup, List.nodup_cons] using h
    by_cases he : e.1 = p
    · have hall : ∀ x ∈ fs, x.1 ≠ p := by
        intro x hx hxp
        exact h'.1 (he ▸ hxp ▸ List.mem_map_of_mem Prod.fst hx)
      rw [List.map_cons, if_pos he, map_keep_of_ne p c fs hall]
      rw [fsTotal_cons, fsTotal_cons]
      dsimp only
      omega
    · rw [List.map_cons, if_neg he, fsTotal_cons, fsTotal_cons]
      have := ih h'.2
      omega

/-- Inserting raises the total by at most the inserted token count. -/
theorem fsTotal_insert_le (tc : String → Nat) (fs : FS) (p c : String)
    (h : keysNodup fs) :
    fsTotal tc (fsInsert fs p c) ≤ fsTotal tc fs + tc c := by
  unfold fsInsert
  split
  · exact fsTotal_map_replace_le tc p c fs h
  · rw [fsTotal_append, fsTotal_cons, fsTotal_nil]
    dsimp only
    omega

/-- A `find?` miss for key `p` means no entry has that key. -/
theorem fsFind_none_of_lookup_none (fs : FS) (p : String)
    (h : fsLookup fs p = none) : fs.find? (fun e => e.1 == p) = none := by
  unfold fsLookup at h
  cases hf : fs.find? (fun e => e.1 == p) with
  | none => rfl
  | some v => rw [hf] at h; simp at h

/-- Keys of entries are distinct from a key that `fsLookup` misses. -/
theorem fsLookup_none_keys (fs : FS) (p : String)
    (h : fsLookup fs p = none) : ∀ e ∈ fs, e.1 ≠ p := by
  have hn := fsFind_none_of_lookup_none fs p h
  rw [List.find?_eq_none] at hn
  intro e he hep
  exact absurd (by simp [hep]) (hn e he)

/-- Insertion preserves key distinctness. -/
theorem fsInsert_keysNodup (fs : FS) (p c : String) (h : keysNodup fs) :
    keysNodup (fsInsert fs p c) := by
  unfold fsInsert
  split
  · have hkeys : (fs.map (fun e => if e.1 = p then (p, c) else e)).map Prod.fst =
        fs.map Prod.fst := by
      rw [List.map_map]
      apply List.map_congr_left
      intro e _
      by_cases h1 : e.1 = p <;> simp [h1]
    unfold keysNodup
    rw [hkeys]
    exact h
  next hnone =>
    have hnotmem : p ∉ fs.map Prod.fst := by
      intro hmem
      obtain ⟨e, he, hep⟩ := List.mem_map.mp hmem
      have hn : fs.find? (fun e => e.1 == p) = none := by
        cases hfind : fs.find? (fun e => e.1 == p) with
        | none => rfl
        | some v => exact absurd (by rw [hfind]; rfl) hnone
      rw [List.find?_eq_none] at hn
      exact absurd (by simp [hep]) (hn e he)
    unfold keysNodup
    rw [List.map_append, List.nodup_append]
    refine ⟨h, by simp, by simpa [List.disjoint_singleton] using hnotmem⟩

/-- Removal never raises the total. -/
theorem fsRemove_total_le (tc : String → Nat) (fs : FS) (p : String) :
    fsTotal tc (fsRemove fs p) ≤ fsTotal tc fs := by
  induction fs with
  | nil => simp [fsRemove]
  | cons e fs ih =>
    simp only [fsRemove]
    split
    · rw [fsTotal_cons]; omega
    · rw [fsTotal_cons, fsTotal_cons]; omega

/-- The keys after a removal form a sublist of the original keys. -/
theorem fsRemove_keys_sublist (fs : FS) (p : String) :
    List.Sublist ((fsRemove fs p).map Prod.fst) (fs.map Prod.fst) := by
  induction fs with
  | nil => simp [fsRemove]
  | cons e fs ih =>
    simp only [fsRemove]
    split
    · exact ih.trans (List.sublist_cons_self e.1 (fs.map Prod.fst))
    · simpa using ih.cons₂ e.1

/-- Removal preserves key distinctness. -/
theorem fsRemove_keysNodup (fs : FS) (p : String) (h : keysNodup fs) :
    keysNodup (fsRemove fs p) := by
  exact (fsRemove_keys_sublist fs p).nodup h

/-- Looking up a freshly appended key finds its value. -/
theorem fsLookup_append_single (fs : FS) (p c : String)
    (h : ∀ e ∈ fs, e.1 ≠ p) :
    fsLookup (fs ++ [(p, c)]) p = some c := by
  unfold fsLookup
  rw [List.find?_append]
  have hn : fs.find? (fun e => e.1 == p) = none :=
    List.find?_eq_none.mpr (fun e he => by simp [h e he])
  rw [hn]
  simp [List.find?]

/-- Removing a freshly appended key restores the original entries. -/
theorem fsRemove_append_single (fs : FS) (p c : String)
    (h : ∀ e ∈ fs, e.1 ≠ p) :
    fsRemove (fs ++ [(p, c)]) p = fs := by
  induction fs with
  | nil => simp [fsRemove]
  | cons e fs ih =>
    have he : e.1 ≠ p := h e (List.mem_cons_self e fs)
    simp only [List.cons_append, fsRemove, if_neg he]
    show e :: fsRemove (fs ++ [(p, c)]) p = e :: fs
    rw [ih (fun x hx => h x (List.mem_cons_of_mem e hx))]

/-- Every single context operation preserves key distinctness and the
budget invariant, and never touches the token limit. -/
theorem applyOp_inv (tc : String → Nat) (cm : ContextManager) (op : CtxOp)
    (h1 : keysNodup cm.files) (h2 : fsTotal tc cm.files ≤ cm.token_limit) :
    keysNodup (applyOp tc cm op).files ∧
    fsTotal tc (applyOp tc cm op).files ≤ (applyOp tc cm op).token_limit ∧
    (applyOp tc cm op).token_limit = cm.token_limit := by
  cases op with
  | add disk cwd path =>
    simp only [applyOp, addFile]
    cases hres : resolveAdd disk cm.working_dir cwd path with
    | none => exact ⟨h1, h2, rfl⟩
    | some rp =>
      dsimp only
      cases hlook : fsLookup disk.files rp with
      | none => exact ⟨h1, h2, rfl⟩
      | some content =>
        dsimp only
        split
        · exact ⟨h1, h2, rfl⟩
        next hbig =>
          refine ⟨fsInsert_keysNodup _ _ _ h1, ?_, rfl⟩
          have hle := fsTotal_insert_le tc cm.files rp content h1
          have hfit : getTotalTokens tc cm + tc content ≤ cm.token_limit :=
            Nat.le_of_not_lt hbig
          unfold getTotalTokens at hfit
          dsimp only
          omega
  | remove cwd path =>
    simp only [applyOp, removeFile]
    split
    · exact ⟨fsRemove_keysNodup _ _ h1, (fsRemove_total_le tc _ _).trans h2, rfl⟩
    · exact ⟨h1, h2, rfl⟩
  | clear =>
    exact ⟨by simp [applyOp, clearContext, keysNodup], by simp [applyOp, clearContext, fsTotal], rfl⟩

/-- The budget invariant holds after any operation sequence. -/
theorem runOps_inv (tc : String → Nat) (ops : List CtxOp) :
    ∀ (cm : ContextManager), keysNodup cm.files →
      fsTotal tc cm.files ≤ cm.token_limit →
      fsTotal tc (runOps tc cm ops).files ≤ (runOps tc cm ops).token_limit ∧
      (runOps tc cm ops).token_limit = cm.token_limit := by
  induction ops with
  | nil => intro cm _ h2; exact ⟨h2, rfl⟩
  | cons op ops ih =>
    intro cm h1 h2
    have h3 := applyOp_inv tc cm op h1 h2
    have h4 := ih (applyOp tc cm op) h3.1 h3.2.1
    unfold runOps at h4 ⊢
    rw [List.foldl_cons]
    exact ⟨h4.1, h4.2.trans h3.2.2⟩

/-! ## Claim C3: token budget -/

/-- A demonstration token counter: content `"F1"` counts 100 tokens,
content `"F2"` counts 50. -/
def tcDemo : String → Nat :=
  fun s => if s = "F1" then 100 else if s = "F2" then 50 else 0

/-- A demonstration disk with the two scenario files. -/
def diskDemo : Disk := ⟨[("/a/one", "F1"), ("/a/two", "F2")], []⟩

/-- C3.  (i) An `add_file` whose token count would push the running
total above the budget fails with the `BudgetExceeded` message and
performs no mutation.  (ii) Starting from an empty context, the
aggregate token sum never exceeds the budget after any sequence of
add/remove/clear operations.  (iii) Scenario: files of 100 and 50
tokens under budget 120 — the second add fails and the total stays
at 100. -/
theorem C3_budget_enforced :
    (∀ (tc : String → Nat) (disk : Disk) (cwd : String) (cm : ContextManager)
       (path rp content : String),
       resolveAdd disk cm.working_dir cwd path = some rp →
       fsLookup disk.files rp = some content →
       getTotalTokens tc cm + tc content > cm.token_limit →
       addFile tc disk cwd cm path =
         (budgetMsg (getTotalTokens tc cm + tc content) cm.token_limit, cm)) ∧
    (∀ (tc : String → Nat) (limit : Nat) (wd : String) (ops : List CtxOp),
       getTotalTokens tc (runOps tc ⟨[], limit, wd⟩ ops) ≤ limit) ∧
    ((addFile tcDemo diskDemo "/a" ⟨[], 120, "/a"⟩ "/a/one").1 = addedMsg "/a/one" 100 ∧
     (addFile tcDemo diskDemo "/a"
        (addFile tcDemo diskDemo "/a" ⟨[], 120, "/a"⟩ "/a/one").2 "/a/two").1 =
       budgetMsg 150 120 ∧
     getTotalTokens tcDemo
       (addFile tcDemo diskDemo "/a"
         (addFile tcDemo diskDemo "/a" ⟨[], 120, "/a"⟩ "/a/one").2 "/a/two").2 = 100) := by
  refine ⟨?_, ?_, by decide, by decide, by decide⟩
  · intro tc disk cwd cm path rp content hres hlook hbig
    simp only [addFile, hres, hlook]
    rw [if_pos hbig]
  · intro tc limit wd ops
    have h := runOps_inv tc ops ⟨[], limit, wd⟩ (by simp [keysNodup]) (by simp [fsTotal])
    unfold getTotalTokens
    exact h.1.trans (le_of_eq h.2)

/-- Witness for C3: the second scenario add applied through the
universal part of the theorem. -/
theorem C3_budget_enforced_witness :
    resolveAdd diskDemo "/a" "/a" "/a/two" = some "/a/two" ∧
    fsLookup diskDemo.files "/a/two" = some "F2" ∧
    getTotalTokens tcDemo ⟨[("/a/one", "F1")], 120, "/a"⟩ + tcDemo "F2" > 120 ∧
    addFile tcDemo diskDemo "/a" ⟨[("/a/one", "F1")], 120, "/a"⟩ "/a/two" =
      (budgetMsg (getTotalTokens tcDemo ⟨[("/a/one", "F1")], 120, "/a"⟩ + tcDemo "F2") 120,
       ⟨[("/a/one", "F1")], 120, "/a"⟩) := by
  refine ⟨by decide, by decide, by decide, ?_⟩
  exact C3_budget_enforced.1 tcDemo diskDemo "/a" ⟨[("/a/one", "F1")], 120, "/a"⟩
    "/a/two" "/a/two" "F2" (by decide) (by decide) (by decide)

/-! ## Claim C8: add/remove round trip (corrected) -/

/-- A token counter for the C8 counterexamples. -/
def tc8 : String → Nat :=
  fun s => if s = "C5" then 5 else if s = "C3" then 3 else 0

/-- C8 counterexample.  (a) Adding a path that is already in the
context overwrites the entry; removing it afterwards deletes the entry
entirely, so the total drops to 0 instead of returning to its pre-add
value 5.  (b) A relative path added via the stored launch directory
(`/w`) is resolved by `remove_file` against the process working
directory (`/c`) instead: the removal finds nothing and the total stays
at its post-add value 3 instead of returning to the pre-add value 0. -/
theorem C8_counterexample :
    (getTotalTokens tc8 ⟨[("/a/g", "C5")], 1000, "/a"⟩ = 5 ∧
     (addFile tc8 ⟨[("/a/g", "C3")], []⟩ "/a" ⟨[("/a/g", "C5")], 1000, "/a"⟩ "/a/g").1 =
       addedMsg "/a/g" 3 ∧
     getTotalTokens tc8
       (removeFile "/a"
         (addFile tc8 ⟨[("/a/g", "C3")], []⟩ "/a" ⟨[("/a/g", "C5")], 1000, "/a"⟩ "/a/g").2
         "/a/g").2 = 0) ∧
    (getTotalTokens tc8 ⟨[], 1000, "/w"⟩ = 0 ∧
     (addFile tc8 ⟨[("/w/f", "C3")], []⟩ "/c" ⟨[], 1000, "/w"⟩ "f").1 = addedMsg "f" 3 ∧
     (removeFile "/c" (addFile tc8 ⟨[("/w/f", "C3")], []⟩ "/c" ⟨[], 1000, "/w"⟩ "f").2 "f").1 =
       "❌ File not in context: f" ∧
     getTotalTokens tc8
       (removeFile "/c" (addFile tc8 ⟨[("/w/f", "C3")], []⟩ "/c" ⟨[], 1000, "/w"⟩ "f").2
         "f").2 = 3) := by
  refine ⟨⟨by decide, by decide, by decide⟩, ⟨by decide, by decide, by decide, by decide⟩⟩

/-- C8 (amended).  For every absolute path not already present in the
context on which `add_file` succeeds, calling `remove_file` on that
same path immediately afterwards restores the entry set — and hence
`get_total_tokens()` — exactly to its pre-add value. -/
theorem C8_add_remove_roundtrip
    (tc : String → Nat) (disk : Disk) (cwd : String) (cm : ContextManager)
    (path content : String)
    (habs : isAbsolute path = true)
    (hdisk : fsLookup disk.files path = some content)
    (hnew : fsLookup cm.files path = none)
    (hbudget : getTotalTokens tc cm + tc content ≤ cm.token_limit) :
    (addFile tc disk cwd cm path).1 = addedMsg path (tc content) ∧
    ((addFile tc disk cwd cm path).2).files = cm.files ++ [(path, content)] ∧
    ((removeFile cwd (addFile tc disk cwd cm path).2 path).2).files = cm.files ∧
    getTotalTokens tc (removeFile cwd (addFile tc disk cwd cm path).2 path).2 =
      getTotalTokens tc cm := by
  have hkeys : ∀ e ∈ cm.files, e.1 ≠ path := fsLookup_none_keys cm.files path hnew
  have hres : resolveAdd disk cm.working_dir cwd path = some path := by
    simp [resolveAdd, habs, diskExists, hdisk]
  have hins : fsInsert cm.files path content = cm.files ++ [(path, content)] := by
    unfold fsInsert
    rw [fsFind_none_of_lookup_none cm.files path hnew]
    simp
  have hadd : addFile tc disk cwd cm path =
      (addedMsg path (tc content),
       { cm with files := cm.files ++ [(path, content)] }) := by
    simp only [addFile, hres, hdisk]
    rw [if_neg (by omega : ¬ getTotalTokens tc cm + tc content > cm.token_limit)]
    rw [hins]
  have hrp : resolvePath cwd path = path := by
    simp [resolvePath, joinPath, habs]
  have hlookapp : fsLookup (cm.files ++ [(path, content)]) path = some content :=
    fsLookup_append_single cm.files path content hkeys
  have hremfiles :
      ((removeFile cwd { cm with files := cm.files ++ [(path, content)] } path).2).files =
        cm.files := by
    simp only [removeFile, hrp, hlookapp]
    simp [fsRemove_append_single cm.files path content hkeys]
  refine ⟨by rw [hadd], by rw [hadd], by rw [hadd]; exact hremfiles, ?_⟩
  rw [hadd]
  unfold getTotalTokens
  rw [hremfiles]

/-- Witness for C8 (amended): a fresh absolute path added and removed,
with the entry set and total restored exactly. -/
theorem C8_add_remove_roundtrip_witness :
    isAbsolute "/a/f" = true ∧
    fsLookup [("/a/f", "C3")] "/a/f" = some "C3" ∧
    fsLookup [("/x", "C5")] "/a/f" = none ∧
    getTotalTokens tc8 ⟨[("/x", "C5")], 1000, "/w"⟩ + tc8 "C3" ≤ 1000 ∧
    ((removeFile "/c"
        (addFile tc8 ⟨[("/a/f", "C3")], []⟩ "/c" ⟨[("/x", "C5")], 1000, "/w"⟩ "/a/f").2
        "/a/f").2).files = [("/x", "C5")] ∧
    getTotalTokens tc8
      (removeFile "/c"
        (addFile tc8 ⟨[("/a/f", "C3")], []⟩ "/c" ⟨[("/x", "C5")], 1000, "/w"⟩ "/a/f").2
        "/a/f").2 = getTotalTokens tc8 ⟨[("/x", "C5")], 1000, "/w"⟩ := by
  have h := C8_add_remove_roundtrip tc8 ⟨[("/a/f", "C3")], []⟩ "/c"
    ⟨[("/x", "C5")], 1000, "/w"⟩ "/a/f" "C3" (by decide) (by decide) (by decide) (by decide)
  exact ⟨by decide, by decide, by decide, by decide, h.2.2.1, h.2.2.2⟩

end Clio
